import Mathlib

/-!
Verification of the middleware / adapter-chain examples of the go-web-app
repository: the `Adapt` composer, the `Notify` adapter, the `logging`
middleware, the request-scoped context store used by `dbwrapper` and
`handleThingsRead`, the mux-style router dispatch, the HTML template
escaping of the todo-app, and the static file responder.

HTTP handlers are shallowly embedded as state transformers over an explicit
world: a handler takes a request descriptor and the current world (response
writer contents, emitted log/event lines, the global per-request context
store) and returns the updated world.
-/

/-- A request descriptor: method, URL path, and a request identity used by
the gorilla-context style store to key per-request slots. -/
structure Request where
  method : String
  path : String
  rid : Nat
deriving DecidableEq, Repr

/-- Values storable in the request context (`map[string]interface{}`):
a database session handle, a string, or a logger reference. -/
inductive Val where
  | session (s : Nat)
  | str (s : String)
  | logger
deriving DecidableEq, Repr

/-- The request context store of `gorilla/context`.
Modelled from the spec: the library itself is not in the repository; the
spec describes it as a per-request mapping from string keys to values where
"each request gets an isolated store instance or an isolated slot keyed by
request identity". We model it as an association list keyed by the pair
(request identity, key); the most recent `Set` wins. -/
abbrev CtxStore : Type := List ((Nat × String) × Val)

/-- `context.Set(r, key, value)`: bind `key` to `value` in the slot of
request `rid`. -/
def ctxSet (st : CtxStore) (rid : Nat) (k : String) (v : Val) : CtxStore :=
  ((rid, k), v) :: st

/-- `context.Get(r, key)`: look up `key` in the slot of request `rid`. -/
def ctxGet (st : CtxStore) (rid : Nat) (k : String) : Option Val :=
  (List.find? (fun e => decide (e.1 = (rid, k))) st).map (fun e => e.2)

/-- The response under construction: status code written so far (if any),
headers, and body text. -/
structure Resp where
  status : Option Nat
  headers : List (String × String)
  body : String
deriving DecidableEq, Repr

/-- The world a handler acts on: the response writer, the lines written to
the log (stdout), the global context store, and the set of database session
copies that have been closed. -/
structure World where
  resp : Resp
  events : List String
  ctx : CtxStore
  closed : List Nat
deriving DecidableEq

/-- `http.Handler`: consumes a request and the current world, produces the
updated world. -/
abbrev Handler : Type := Request → World → World

/-- The `Adapter` type of the source: `type Adapter func(http.Handler) http.Handler`. -/
abbrev Adapter : Type := Handler → Handler

/-- `Adapt` from the source:
`for _, adapter := range adapters { h = adapter(h) }; return h`. -/
def Adapt (h : Handler) (adapters : List Adapter) : Handler :=
  adapters.foldl (fun acc a => a acc) h

/-- The composition the spec describes, written as the spec words it:
"the last adapter in the list becomes the outermost wrapper". `wrapAll`
wraps head-outermost, so reversing the list puts the last adapter outside. -/
def wrapAll : List Adapter → Handler → Handler
  | [], h => h
  | a :: as, h => a (wrapAll as h)

/-- Spec-side composition: `adaptSpec h [a1, ..., an] = an (a(n-1) (... (a1 h)))`. -/
def adaptSpec (h : Handler) (as : List Adapter) : Handler :=
  wrapAll as.reverse h

theorem wrapAll_append (l : List Adapter) (a : Adapter) (h : Handler) :
    wrapAll (l ++ [a]) h = wrapAll l (a h) := by
  induction l with
  | nil => rfl
  | cons b l ih => simp [wrapAll, ih]

/-- C1: `Adapt(h, a1, ..., an)` equals the nested handler
`an(a(n-1)(...(a1(h))...))`: the fold of the source builds exactly the
nesting the spec describes, with the last adapter as outermost wrapper. -/
theorem Adapt_eq_adaptSpec (h : Handler) (as : List Adapter) :
    Adapt h as = adaptSpec h as := by
  induction as generalizing h with
  | nil => rfl
  | cons a as ih =>
      simp only [Adapt, List.foldl_cons, adaptSpec, List.reverse_cons]
      rw [wrapAll_append]
      exact ih (a h)

/-- C10: `Adapt` applied to an empty adapter list returns the base handler
itself, unchanged. -/
theorem Adapt_nil (h : Handler) : Adapt h [] = h := rfl

/-- Append one line to the log/event trace (`log.Println`). -/
def emit (e : String) (w : World) : World :=
  { w with events := w.events ++ [e] }

/-- The shape of the `Notify` adapter of the source, generalised to carry
its two log messages: run pre-logic, invoke the wrapped handler, run
post-logic when it returns (`defer`). -/
def prePostAdapter (pre post : String) : Adapter :=
  fun h => fun r w => emit post (h r (emit pre w))

/-- `Notify` from the source: `log.Println("before")`,
`defer log.Println("after")`, `h.ServeHTTP(w, r)`. -/
def Notify : Adapter := prePostAdapter "before" "after"

/-- C2: for adapters A (outer) and B (inner) of the Notify shape wrapping a
handler `h` whose effect on the event trace is to append `hEvents`, the
composed handler produces A's pre-logic, then B's, then the handler's
events, then B's post-logic, then A's post-logic (stack discipline). -/
theorem prePost_order (aPre aPost bPre bPost : String) (h : Handler)
    (hEvents : List String) (r : Request) (w : World)
    (hh : ∀ w', (h r w').events = w'.events ++ hEvents) :
    ((prePostAdapter aPre aPost) ((prePostAdapter bPre bPost) h) r w).events
      = w.events ++ [aPre] ++ [bPre] ++ hEvents ++ [bPost] ++ [aPost] := by
  simp [prePostAdapter, emit, hh]

/-- A terminal handler that just records the event `"H"`. -/
def baseHandler : Handler := fun _ w => emit "H" w

/-- A sample request. -/
def baseRequest : Request := { method := "GET", path := "/", rid := 0 }

/-- The world before any request processing. -/
def emptyWorld : World :=
  { resp := { status := none, headers := [], body := "" }
    events := [], ctx := [], closed := [] }

/-- Witness for C2 at a concrete composition of two Notify-shaped adapters
around the recording handler. -/
theorem prePost_order_witness :
    ((prePostAdapter "A-pre" "A-post")
        ((prePostAdapter "B-pre" "B-post") baseHandler) baseRequest
        emptyWorld).events
      = ["A-pre", "B-pre", "H", "B-post", "A-post"] :=
  prePost_order "A-pre" "A-post" "B-pre" "B-post" baseHandler ["H"]
    baseRequest emptyWorld (fun _ => rfl)

/-- `s.Copy()` on an mgo session: the request gets a fresh handle derived
from the pooled session. -/
def copySession (s : Nat) : Nat := s + 1

/-- `respond` from the source, to the extent the context claims need it:
write the status code and append the encoded data to the body. -/
def respond (w : Resp) (status : Nat) (data : String) : Resp :=
  { w with status := some status, body := w.body ++ data }

/-- `dbwrapper.ServeHTTP` from the source: copy the session, put the copy
in the context for this request under `"db"`, serve the request with the
wrapped handler, and afterwards (`defer`) close the copy. -/
def dbwrapper (dbSession : Nat) (h : Handler) : Handler :=
  fun r w =>
    let dbcopy := copySession dbSession
    let w1 := { w with ctx := ctxSet w.ctx r.rid "db" (Val.session dbcopy) }
    let w2 := h r w1
    { w2 with closed := w2.closed ++ [dbcopy] }

/-- `handleThingsRead` from the source: recover the session with
`context.Get(r, "db")`, query it, and respond OK with the results; the body
records which session handle the query used. -/
def handleThingsRead : Handler :=
  fun r w =>
    match ctxGet w.ctx r.rid "db" with
    | some (Val.session s) =>
        { w with resp := respond w.resp 200 ("things from session " ++ toString s) }
    | _ => { w with resp := respond w.resp 500 "no db session" }

/-- C4: the value `dbwrapper` stores under `"db"` is what a later `Get` for
that key in the same request returns, and the terminal handler
`handleThingsRead` wrapped by `dbwrapper` observes exactly the stored
session copy (its response is built from that same handle). -/
theorem dbwrapper_visible (s : Nat) (r : Request) (w : World) :
    ctxGet (ctxSet w.ctx r.rid "db" (Val.session (copySession s))) r.rid "db"
        = some (Val.session (copySession s))
      ∧ (dbwrapper s handleThingsRead r w).resp
        = respond w.resp 200 ("things from session " ++ toString (copySession s)) := by
  constructor
  · simp [ctxGet, ctxSet, List.find?]
  · simp [dbwrapper, handleThingsRead, ctxGet, ctxSet, List.find?]

/-- C5: context isolation across requests. A `Set` performed for request
`r1` never changes what a `Get` for a different request `r2` observes: the
store is keyed by request identity. -/
theorem ctx_isolation (st : CtxStore) (r1 r2 : Nat) (k k' : String) (v : Val)
    (h : r1 ≠ r2) :
    ctxGet (ctxSet st r1 k v) r2 k' = ctxGet st r2 k' := by
  simp [ctxGet, ctxSet, List.find?_cons, Prod.ext_iff, h]

/-- Witness for C5: request 1 stores a secret; request 2 reading the same
key sees exactly what it would have seen before. -/
theorem ctx_isolation_witness :
    (1 ≠ 2)
      ∧ ctxGet (ctxSet [] 1 "token" (Val.str "secret")) 2 "token"
        = ctxGet ([] : CtxStore) 2 "token" :=
  ⟨by decide, ctx_isolation [] 1 2 "token" "token" (Val.str "secret") (by decide)⟩

/-- `http.HandlerFunc` as used in the logging example: a function of the
request and the response writer. Its result carries the updated response
and the stream of log lines the run produced; handlers write the log but
cannot read it back, as with the Go process log. -/
abbrev HandlerFunc : Type := Request → Resp → Resp × List String

/-- `logging` from the source: `log.Println(r.URL.Path)`, then `f(w, r)`.
The wrapped function is applied once; the log gains the request path in
front of whatever `f` itself logs. -/
def logging (f : HandlerFunc) : HandlerFunc :=
  fun r w =>
    let res := f r w
    (res.1, r.path :: res.2)

/-- `foo` from the source: `fmt.Fprintln(w, "foo")`. -/
def foo : HandlerFunc :=
  fun _ w => ({ w with body := w.body ++ "foo\n" }, [])

/-- `bar` from the source: `fmt.Fprintln(w, "bar")`. -/
def bar : HandlerFunc :=
  fun _ w => ({ w with body := w.body ++ "bar\n" }, [])

/-- C3: the handler `logging f` produces as its response exactly the
response of a single application of `f` to the same request and writer
(status, headers and body untouched), and its log output is the request
path followed by whatever that application of `f` logs. -/
theorem logging_transparent (f : HandlerFunc) (r : Request) (w : Resp) :
    ((logging f) r w).1 = (f r w).1
      ∧ ((logging f) r w).2 = r.path :: (f r w).2 :=
  ⟨rfl, rfl⟩

/-- A segment of a route pattern: a literal, or a named placeholder. -/
inductive Segment where
  | lit (s : String)
  | param (n : String)
deriving DecidableEq, Repr

/-- The opening curly brace character. -/
def lbrace : Char := Char.ofNat 123

/-- The closing curly brace character. -/
def rbrace : Char := Char.ofNat 125

/-- Modelled from the spec: gorilla/mux pattern parsing is not in the
repository; per the spec a pattern segment of the form `{name}` is a named
placeholder and anything else is a literal. -/
def parseSeg (s : String) : Segment :=
  if s.data.head? = some lbrace ∧ s.data.getLast? = some rbrace then
    Segment.param (String.mk ((s.data.drop 1).dropLast))
  else Segment.lit s

/-- Split a URL path on slashes, dropping empty segments. -/
def splitPathAux : List Char → List Char → List String
  | [], acc => if acc = [] then [] else [String.mk acc.reverse]
  | c :: cs, acc =>
    if c = '/' then
      if acc = [] then splitPathAux cs []
      else String.mk acc.reverse :: splitPathAux cs []
    else splitPathAux cs (c :: acc)

/-- Segments of a URL path. -/
def splitPath (p : String) : List String := splitPathAux p.data []

/-- Modelled from the spec: the matching policy of the router — "exact
literal segments match literally; placeholder segments (`{name}`) match any
single path segment and bind it by name". Returns the placeholder bindings
on a match. -/
def matchSegs : List Segment → List String → Option (List (String × String))
  | [], [] => some []
  | Segment.lit s :: ps, t :: ts => if s = t then matchSegs ps ts else none
  | Segment.param n :: ps, t :: ts =>
      (matchSegs ps ts).map (fun bs => (n, t) :: bs)
  | _, _ => none

/-- Dispatch a request path against one registered pattern, as
`mux.Vars(r)` exposes the bindings to the handler. -/
def dispatchRoute (pattern path : String) : Option (List (String × String)) :=
  matchSegs ((splitPath pattern).map parseSeg) (splitPath path)

/-- C6: dispatching `/books/dune/page/10` against the registered pattern
`/books/{title}/page/{page}` succeeds and binds `title = "dune"` and
`page = "10"`; a literal segment matches exactly itself, and a placeholder
matches exactly one segment (never zero, never two), binding it by name. -/
theorem mux_dispatch_books :
    dispatchRoute "/books/{title}/page/{page}" "/books/dune/page/10"
        = some [("title", "dune"), ("page", "10")]
      ∧ (∀ s t : String,
          matchSegs [Segment.lit s] [t] = if s = t then some [] else none)
      ∧ (∀ n t : String, matchSegs [Segment.param n] [t] = some [(n, t)])
      ∧ (∀ n : String, matchSegs [Segment.param n] [] = none)
      ∧ (∀ n t₁ t₂ : String, matchSegs [Segment.param n] [t₁, t₂] = none) := by
  refine ⟨by decide, fun s t => ?_, fun n t => rfl, fun n => rfl, fun n t₁ t₂ => rfl⟩
  by_cases h : s = t <;> simp [matchSegs, h]

/-- The double-quote character. -/
def dquote : Char := Char.ofNat 34

/-- The single-quote character. -/
def squote : Char := Char.ofNat 39

/-- Modelled from the spec: the escaping `html/template` applies to string
data interpolated into an HTML context (the library is not in the
repository). The five HTML-significant characters are replaced by their
entity escapes. -/
def escapeChar (c : Char) : List Char :=
  if c = '<' then "&lt;".data
  else if c = '>' then "&gt;".data
  else if c = '&' then "&amp;".data
  else if c = dquote then "&#34;".data
  else if c = squote then "&#39;".data
  else [c]

/-- Escape every character of a character list. -/
def escapeList : List Char → List Char
  | [] => []
  | c :: cs => escapeChar c ++ escapeList cs

/-- Escape a string for interpolation into an HTML context. -/
def escapeHTML (s : String) : String := String.mk (escapeList s.data)

/-- `Todo` from the todo-app source. -/
structure Todo where
  Title : String
  Done : Bool
deriving DecidableEq, Repr

/-- `TodoPageData` from the todo-app source. -/
structure TodoPageData where
  PageTitle : String
  Todos : List Todo
deriving DecidableEq, Repr

/-- Render the list items of the todo layout, escaping each title. -/
def renderTodos : List Todo → String
  | [] => ""
  | t :: ts => "<li>" ++ escapeHTML t.Title ++ "</li>" ++ renderTodos ts

/-- Modelled from the spec: the todo-app layout (`layout.html` is not in
the repository) interpolates `PageTitle` into a heading and each todo
`Title` into a list item, both in HTML context and therefore escaped. -/
def renderTodoPage (d : TodoPageData) : String :=
  "<h1>" ++ escapeHTML d.PageTitle ++ "</h1><ul>"
    ++ renderTodos d.Todos ++ "</ul>"

theorem escapeChar_count_lt (c : Char) : (escapeChar c).count '<' = 0 := by
  unfold escapeChar
  split
  · decide
  split
  · decide
  split
  · decide
  split
  · decide
  split
  · decide
  rename_i h _ _ _ _
  simp [List.count_cons, h]

theorem escapeChar_count_gt (c : Char) : (escapeChar c).count '>' = 0 := by
  unfold escapeChar
  split
  · decide
  split
  · decide
  split
  · decide
  split
  · decide
  split
  · decide
  rename_i h _ _ _
  simp [List.count_cons, h]

theorem escapeList_count_lt (l : List Char) : (escapeList l).count '<' = 0 := by
  induction l with
  | nil => rfl
  | cons c cs ih => simp [escapeList, List.count_append, ih, escapeChar_count_lt]

theorem escapeList_count_gt (l : List Char) : (escapeList l).count '>' = 0 := by
  induction l with
  | nil => rfl
  | cons c cs ih => simp [escapeList, List.count_append, ih, escapeChar_count_gt]

/-- Page data whose titles carry script markup. -/
def badData : TodoPageData :=
  { PageTitle := "<script>alert(1)</script>"
    Todos := [{ Title := "<script>x</script>", Done := false }] }

/-- C7: escaped interpolation is inert — the escaped form of any string
contains no `<` and no `>` at all, so it cannot open or close a tag; and
rendering the todo layout against data whose `PageTitle` and a todo
`Title` contain `<script>` yields output in which those values appear only
as `&lt;script&gt;...` entity text, while the template's own markup is
untouched. -/
theorem template_escapes_script :
    (∀ s : String, (escapeHTML s).data.count '<' = 0
        ∧ (escapeHTML s).data.count '>' = 0)
      ∧ renderTodoPage badData
        = "<h1>&lt;script&gt;alert(1)&lt;/script&gt;</h1><ul><li>&lt;script&gt;x&lt;/script&gt;</li></ul>" := by
  refine ⟨fun s => ⟨escapeList_count_lt s.data, escapeList_count_gt s.data⟩, ?_⟩
  decide

/-- Modelled from the spec: the static file responder's path resolution —
"resolve a request path to a file under that directory after stripping the
prefix" and "must reject paths that resolve outside the root directory
(path traversal)". Segments are resolved against a stack: `..` pops one
directory, and popping past the root rejects the request; `.` and empty
segments are skipped. -/
def resolveGo : List String → List String → Option (List String)
  | stack, [] => some stack.reverse
  | stack, s :: rest =>
    if s = ".." then
      match stack with
      | [] => none
      | _ :: stk => resolveGo stk rest
    else if s = "." ∨ s = "" then resolveGo stack rest
    else resolveGo (s :: stack) rest

/-- The static file responder: the file served for a request path (already
stripped of the `/static/` prefix) lives at the resolved location under the
root directory; a path that escapes the root is rejected (`none`). -/
def serveStatic (root : List String) (reqPath : List String) : Option (List String) :=
  (resolveGo [] reqPath).map (fun f => root ++ f)

/-- C8: whenever the responder serves a file, that file's path begins with
the configured root directory — nothing outside the root is ever served —
and request paths whose traversal segments would climb out of the root are
rejected outright. -/
theorem static_no_escape :
    (∀ (root segs f : List String),
        serveStatic root segs = some f → f.take root.length = root)
      ∧ serveStatic ["static"] ["..", "etc", "passwd"] = none
      ∧ serveStatic ["static"] ["a", "..", "..", "secret"] = none := by
  refine ⟨?_, by decide, by decide⟩
  intro root segs f h
  unfold serveStatic at h
  cases hr : resolveGo [] segs with
  | none => rw [hr] at h; cases h
  | some out =>
      rw [hr] at h
      rw [Option.map_some'] at h
      injection h with h
      subst h
      exact List.take_left root out

/-- Witness for C8 at a benign request: the served file sits under the
root. -/
theorem static_no_escape_witness :
    List.take 1 ["static", "css", "site.css"] = ["static"] :=
  static_no_escape.1 ["static"] ["css", "site.css"]
    ["static", "css", "site.css"] (by decide)

/-- The fixed page data the todo-app handler builds on every request. -/
def todoData : TodoPageData :=
  { PageTitle := "My TODO List"
    Todos := [{ Title := "Task 1", Done := false }
              , { Title := "Task 2", Done := true }
              , { Title := "Task 3", Done := true }] }

/-- A template execution: writes (possibly partial) output to the response
writer and returns the render error, if any, as `tmpl.Execute` does. -/
abbrev ExecFn : Type := TodoPageData → Resp → Resp × Option String

/-- The todo-app request handler from the source: build the page data and
call `tmpl.Execute(w, data)`. The source discards the returned error — the
handler's response is whatever `Execute` wrote, nothing more. -/
def todoHandler (exec : ExecFn) (w : Resp) : Resp :=
  (exec todoData w).1

/-- The status the Go HTTP server sends when the handler returns: the
explicitly written status, or 200 when no `WriteHeader` call was made. -/
def finalStatus (w : Resp) : Nat := w.status.getD 200

/-- An execution that fails at render time after writing partial output —
a data-shape mismatch such as a missing referenced field. -/
def failingExec : ExecFn :=
  fun _ w => ({ w with body := w.body ++ "<h1>" }, some "missing field")

/-- An execution making the same writes as `failingExec` but succeeding. -/
def okExec : ExecFn :=
  fun _ w => ({ w with body := w.body ++ "<h1>" }, none)

/-- An untouched response writer. -/
def emptyResp : Resp := { status := none, headers := [], body := "" }

/-- C9 counterexample: when `tmpl.Execute` returns a non-nil error, the
todo-app handler does not produce a server-error response — the response
keeps the partial output and goes out with the default status 200, below
the server-error range. -/
theorem todo_error_counterexample :
    (failingExec todoData emptyResp).2 = some "missing field"
      ∧ finalStatus (todoHandler failingExec emptyResp) = 200
      ∧ 200 < 500 := by
  refine ⟨rfl, rfl, by decide⟩

/-- C9 amended: the todo-app handler discards the error `tmpl.Execute`
returns: its response is exactly what the execution wrote, and two
executions making the same writes yield the same response no matter what
errors they report — no server-error reaction, no log, happens. -/
theorem todo_error_discarded (f g : ExecFn)
    (hw : ∀ d w', (f d w').1 = (g d w').1) (w : Resp) :
    todoHandler f w = (f todoData w).1 ∧ todoHandler f w = todoHandler g w :=
  ⟨rfl, hw todoData w⟩

/-- Witness for the amended C9: a failing and a succeeding execution with
identical writes produce identical responses. -/
theorem todo_error_discarded_witness :
    todoHandler failingExec emptyResp = (failingExec todoData emptyResp).1
      ∧ todoHandler failingExec emptyResp = todoHandler okExec emptyResp :=
  todo_error_discarded failingExec okExec (fun _ _ => rfl) emptyResp
